import Mathlib

/-!
# Verification of the product recommender (`app.py`)

Shallow embedding of the recommendation app: artifact loading, the product
catalog, and the similarity resolver.  Python lists become `List`, Python
dicts become association lists, the Annoy index is an abstract oracle
function (ordinal and count in, ordinals out), and operations that can raise
a Python exception return `Except String`.  Python's slice `l[:k]` with a
possibly-negative `k` is modelled by `pyTake`.
-/

namespace RecSys

/-- A catalog row, as far as the code inspects it: the (stringified)
`product_id` and the `title` cell, which may be missing (`NaN` is `none`). -/
structure PRecord where
  pid : String
  title : Option String
deriving DecidableEq, Repr

/-- Python's `l[:k]` for an arbitrary integer `k`: a nonnegative `k` keeps the
first `k` elements, a negative `k` drops the last `-k` elements. -/
def pyTake (k : Int) (l : List α) : List α :=
  if 0 ≤ k then l.take k.toNat else l.take (l.length - (-k).toNat)

/-- `prod_to_idx = {p: i for i, p in enumerate(product_ids)}` followed by
`.get p`: a Python dict comprehension lets later duplicate keys override
earlier ones, so this returns the index of the LAST occurrence of `p`. -/
def prodToIdxAux (p : String) : List String → Nat → Option Nat
  | [], _ => none
  | q :: rest, base =>
    match prodToIdxAux p rest (base + 1) with
    | some j => some j
    | none => if q == p then some base else none

/-- `prod_to_idx.get(str(pid))` over the catalog id column in load order. -/
def prodToIdx (ids : List String) (p : String) : Option Nat :=
  prodToIdxAux p ids 0

/-- In-memory state the resolver closes over: the id column (load order), the
optional similarity map (a deserialized dict), and the optional Annoy index,
abstracted as its `get_nns_by_item` query function. -/
structure Ctx where
  productIds : List String
  similarityMap : Option (List (String × List String))
  ann : Option (Nat → Int → List Nat)

/-- `similar_by_map`: `None` when no map was loaded, otherwise
`similarity_map.get(pid, [])[:k]`. -/
def similarByMap (sm : Option (List (String × List String))) (pid : String)
    (k : Int) : Option (List String) :=
  match sm with
  | none => none
  | some m => some (pyTake k ((List.lookup pid m).getD []))

/-- The list comprehension
`[product_ids[i] for i in nbrs if product_ids[i] != pid]`: each ordinal is
looked up with Python list indexing, which raises `IndexError` when the
ordinal is out of range; in-range ids different from `pid` are kept in
order. -/
def mapOrdinals (ids : List String) (pid : String) :
    List Nat → Except String (List String)
  | [] => .ok []
  | i :: rest =>
    match ids.get? i with
    | none => .error "IndexError"
    | some name =>
      match mapOrdinals ids pid rest with
      | .error e => .error e
      | .ok tail => .ok (if name == pid then tail else name :: tail)

/-- `similar_by_annoy`: `None` when no index could be loaded, `[]` when the
pid has no ordinal, otherwise the ordinals of the `k+1` nearest neighbours
mapped back to ids, self-excluded, then sliced to `k`. -/
def similarByAnnoy (ctx : Ctx) (pid : String) (k : Int) :
    Except String (Option (List String)) :=
  match ctx.ann with
  | none => .ok none
  | some ai =>
    match prodToIdx ctx.productIds pid with
    | none => .ok (some [])
    | some idx =>
      match mapOrdinals ctx.productIds pid (ai idx (k + 1)) with
      | .error e => .error e
      | .ok l => .ok (some (pyTake k l))

/-- `get_similar`: prefer the similarity map; only when `similar_by_map`
returned `None` (no map loaded at all) query Annoy, and coerce a falsy
(`None` or empty) Annoy answer to `[]` via Python's `or []`. -/
def getSimilar (ctx : Ctx) (pid : String) (k : Int) :
    Except String (List String) :=
  match similarByMap ctx.similarityMap pid k with
  | some res => .ok res
  | none =>
    match similarByAnnoy ctx pid k with
    | .error e => .error e
    | .ok o => .ok (o.getD [])

/-- `get_title`: the `title` cell of the first row whose `product_id` equals
`str(pid)`, else `str(pid)` itself.  The result is `none` exactly when that
cell holds `NaN`. -/
def getTitle (cat : List PRecord) (pid : String) : Option String :=
  match cat.find? (fun r => r.pid == pid) with
  | some r => r.title
  | none => some pid

/-!
## Title search

`product_meta['title'].str.contains(query, case=False, na=False)` compiles
the query as a REGULAR EXPRESSION (pandas' default `regex=True`) with
`re.IGNORECASE` and tests `re.search` against each title; `NaN` titles give
`False`.  We embed the fragment of Python's regex language with no
metacharacter except `.`: a pattern is a sequence of atoms, each matching one
character.  Queries using any other metacharacter fall outside the model and
`parsePattern` rejects them, making the embedded search `Option`-valued.
-/

/-- One regex atom of the modelled fragment: a literal character or `.`. -/
inductive RAtom where
  | lit (c : Char)
  | dot
deriving DecidableEq, Repr

/-- Python regex metacharacters: dot, caret, dollar, star, plus, question
mark, braces, square brackets, backslash, pipe, parentheses. -/
def isRegexMeta (c : Char) : Bool :=
  c ∈ ['.', '^', '$', '*', '+', '?', '[', ']', '\\', '|', '(', ')',
       Char.ofNat 123, Char.ofNat 125]

/-- Compile a query into a sequence of atoms; `none` when the query uses a
metacharacter other than `.` (outside the embedded regex fragment). -/
def parsePattern : List Char → Option (List RAtom)
  | [] => some []
  | c :: cs =>
    if c = '.' then (parsePattern cs).map (RAtom.dot :: ·)
    else if isRegexMeta c then none
    else (parsePattern cs).map (RAtom.lit c :: ·)

/-- One atom against one character, under `re.IGNORECASE`; `.` matches any
character except a newline. -/
def atomMatchCI : RAtom → Char → Bool
  | .lit c, d => c.toLower == d.toLower
  | .dot, d => d != '\n'

/-- The whole atom sequence consumes consecutive characters from the front. -/
def matchHere : List RAtom → List Char → Bool
  | [], _ => true
  | _ :: _, [] => false
  | a :: ps, d :: ds => atomMatchCI a d && matchHere ps ds

/-- `re.search`: the pattern matches at some position of the string. -/
def reSearch (p : List RAtom) : List Char → Bool
  | [] => matchHere p []
  | d :: ds => matchHere p (d :: ds) || reSearch p ds

/-- The mask-and-head pipeline
`matches = product_meta[product_meta['title'].str.contains(query, case=False,
na=False)].head(100)`; `none` when the query falls outside the embedded regex
fragment. -/
def searchCode (q : String) (cat : List PRecord) : Option (List PRecord) :=
  (parsePattern q.data).map (fun pat =>
    (cat.filter (fun r =>
      match r.title with
      | some t => reSearch pat t.data
      | none => false)).take 100)

/-- Python's `s.strip()` on the characters of `s`: drop whitespace from both
ends. -/
def pyStrip (s : String) : List Char :=
  ((s.data.dropWhile Char.isWhitespace).reverse.dropWhile
    Char.isWhitespace).reverse

/-- The surrounding UI flow: `if query.strip(): <mask-and-head> else:
product_meta.head(100)` — an empty or all-whitespace query shows the head of
the catalog instead of searching. -/
def searchUI (q : String) (cat : List PRecord) : Option (List PRecord) :=
  if pyStrip q = [] then some (cat.take 100) else searchCode q cat

/-!
Spec-side search, for the refinement comparison.  The spec reads: a
case-insensitive PLAIN-SUBSTRING match against the title, missing/empty
titles never matching, catalog order preserved, truncated to the limit, and
the empty query returning the first `limit` records.
-/

/-- Plain consecutive-substring occurrence. -/
def containsSub (needle : List Char) : List Char → Bool
  | [] => needle.isEmpty
  | d :: ds => needle.isPrefixOf (d :: ds) || containsSub needle ds

/-- Lower-case a character list (the case-insensitivity of the spec). -/
def lowerL (s : List Char) : List Char := s.map Char.toLower

/-- Modelled from the spec: `search(queryText, limit)` as the spec words it —
case-insensitive plain-substring match against `title`, missing titles never
match, catalog order, truncated to `limit`, and the empty query yields the
first `limit` records. -/
def searchSpec (q : String) (limit : Nat) (cat : List PRecord) :
    List PRecord :=
  if q = "" then cat.take limit
  else
    (cat.filter (fun r =>
      match r.title with
      | some t => containsSub (lowerL q.data) (lowerL t.data)
      | none => false)).take limit

/-!
## Artifact store (`load_artifacts`)

Each on-disk artifact is modelled by its state: absent, present-but-corrupt
(deserialization raises), or present with a value.  `load_artifacts` is then
a straight-line translation: wrapped loads convert a raised exception into
`None`, unwrapped loads (`joblib.load(p) if p.exists() else None` for the
similarity map and the TF-IDF vectorizer) let it propagate, which we model
with `Except`.
-/

/-- State of one optional artifact file. -/
inductive Art (α : Type) where
  | absent
  | corrupt
  | ok (v : α)
deriving DecidableEq, Repr

/-- What `joblib.load` of the product-meta file can yield: a DataFrame, a
dict-like convertible into one, or a value `pd.DataFrame` rejects. -/
inductive PMRaw where
  | df (table : List PRecord)
  | convertible (table : List PRecord)
  | unconvertible
deriving DecidableEq, Repr

/-- The dimension-hint object, as far as the code inspects it: whether it has
an integer `n_components` attribute. -/
structure SvdObj where
  nComponents : Option Nat
deriving DecidableEq, Repr

/-- What the `svd_model_small.joblib` file holds: missing, unreadable, a dict
with the known `svd` key, a dict without it, or a bare model object. -/
inductive SvdFile where
  | absent
  | corrupt
  | dictWithKey (inner : SvdObj)
  | dictWithoutKey
  | bare (obj : SvdObj)
deriving DecidableEq, Repr

/-- Lines 51-63: load the hint file inside `try`, unwrap `svd_job['svd']`
when the value is a dict with that key; any failure leaves `svd_obj = None`.
A dict without the key is kept as-is and, being a dict, has no
`n_components` attribute. -/
def loadSvdObj : SvdFile → Option SvdObj
  | .absent => none
  | .corrupt => none
  | .dictWithKey o => some o
  | .dictWithoutKey => some ⟨none⟩
  | .bare o => some o

/-- Lines 98-101 of `load_annoy_index`: `dim = 32`, overridden by
`int(svd_model.n_components)` when the model loaded and has the attribute. -/
def inferDim (svd : Option SvdObj) : Nat :=
  match svd with
  | some o =>
    match o.nComponents with
    | some n => n
    | none => 32
  | none => 32

/-- The two Annoy files on disk: the gzip form and the canonical form, each
`none` when absent, otherwise carrying its bytes. -/
structure AnnFS where
  gz : Option (List Nat)
  ann : Option (List Nat)
deriving DecidableEq, Repr

/-- Lines 66-74: `if ann_gz.exists() and not ann_file.exists():` decompress
the gzip file into the canonical path.  Returns the filesystem afterwards and
the `annoy_decompressed` flag (`none` when the branch was not taken).
`gunzip` abstracts gzip decompression of the bytes. -/
def annoyStep (gunzip : List Nat → List Nat) (fs : AnnFS) :
    AnnFS × Option Bool :=
  match fs.gz, fs.ann with
  | some g, none => (⟨some g, some (gunzip g)⟩, some true)
  | _, _ => (fs, none)

/-- The bundle `load_artifacts` returns (plus the filesystem it leaves
behind).  `annoyPath` holds the canonical file's bytes when the file exists,
matching `str(ann_file) if ann_file.exists() else None`. -/
structure Artifacts where
  productMeta : Option (List PRecord)
  similarityMap : Option (List (String × List String))
  tfidf : Option Unit
  svdModel : Option SvdObj
  annoyPath : Option (List Nat)

/-- The on-disk world `load_artifacts` reads. -/
structure Store where
  pmJob : Art PMRaw
  pmPkl : Art (List PRecord)
  sm : Art (List (String × List String))
  tfidf : Art Unit
  svd : SvdFile
  fs : AnnFS

/-- `load_artifacts` (lines 13-77).  The product-meta, svd and Annoy steps
wrap their work in `try`/`except`; the similarity-map and TF-IDF loads only
check existence, so a corrupt file raises out of the whole function. -/
def loadArtifacts (gunzip : List Nat → List Nat) (s : Store) :
    Except String (Artifacts × AnnFS) :=
  let pm : Option (List PRecord) :=
    match s.pmJob with
    | .ok (.df t) => some t
    | .ok (.convertible t) => some t
    | .ok .unconvertible => none
    | .corrupt => none
    | .absent =>
      match s.pmPkl with
      | .ok t => some t
      | .corrupt => none
      | .absent => none
  match s.sm with
  | .corrupt => .error "joblib.load raised"
  | _ =>
    let smv : Option (List (String × List String)) :=
      match s.sm with
      | .ok m => some m
      | _ => none
    match s.tfidf with
    | .corrupt => .error "joblib.load raised"
    | _ =>
      let tf : Option Unit :=
        match s.tfidf with
        | .ok _ => some ()
        | _ => none
      let fs1 := (annoyStep gunzip s.fs).1
      .ok (⟨pm, smv, tf, loadSvdObj s.svd, fs1.ann⟩, fs1)

/-- Lines 111-113: the app halts with an error when `product_meta is None`;
every other artifact may be absent. -/
def catalogGuard (a : Artifacts) : Except String Unit :=
  match a.productMeta with
  | none => .error "product_meta not found"
  | some _ => .ok ()

/-!
## Concrete fixtures

Small concrete states used to evaluate the embedded operations.
-/

/-- Catalog ids A, B, C; a similarity map holding only A; an Annoy index
answering ordinals 1, 0, 2 to every query. -/
def ctxC1 : Ctx :=
  ⟨["A", "B", "C"], some [("A", ["C", "B"])], some (fun _ _ => [1, 0, 2])⟩

/-- Catalog ids A, B, C; no similarity map; an Annoy index answering
ordinals 1, 0, 2 to every query. -/
def ctxC4 : Ctx := ⟨["A", "B", "C"], none, some (fun _ _ => [1, 0, 2])⟩

/-- Catalog ids A, B, C; a similarity map holding only A; no Annoy index. -/
def ctxC5 : Ctx := ⟨["A", "B", "C"], some [("A", ["C", "B"])], none⟩

/-- A two-item catalog whose Annoy index answers the out-of-range
ordinal 5. -/
def ctxC10 : Ctx := ⟨["A", "B"], none, some (fun _ _ => [5])⟩

/-- One catalog row titled Red Shoe. -/
def catC3 : List PRecord := [⟨"A", some "Red Shoe"⟩]

/-- One catalog row whose stored title is the empty string. -/
def catC6 : List PRecord := [⟨"A", some ""⟩]

/-- A store where every artifact is fine except a corrupt similarity map. -/
def storeC2 : Store :=
  ⟨.ok (.df [⟨"A", some "T"⟩]), .absent, .corrupt, .ok (), .bare ⟨some 64⟩,
   ⟨none, none⟩⟩

/-- A store with a corrupt catalog table and dimension hint but a readable
similarity map, plus a compressed Annoy artifact awaiting decompression. -/
def storeC2w : Store :=
  ⟨.corrupt, .absent, .ok [("A", ["B"])], .absent, .corrupt, ⟨some [1], none⟩⟩

/-!
## Helper lemmas
-/

theorem pyTake_nonneg {α : Type} (k : Int) (h : 0 ≤ k) (l : List α) :
    pyTake k l = l.take k.toNat := by
  simp [pyTake, h]

theorem pyTake_neg_one {α : Type} (l : List α) :
    pyTake (-1) l = l.take (l.length - 1) := by
  norm_num [pyTake]

theorem prodToIdxAux_some (p : String) :
    ∀ (ids : List String) (base j : Nat), prodToIdxAux p ids base = some j →
      base ≤ j ∧ j - base < ids.length ∧ ids.get? (j - base) = some p := by
  intro ids
  induction ids with
  | nil => intro base j h; simp [prodToIdxAux] at h
  | cons q rest ih =>
    intro base j h
    unfold prodToIdxAux at h
    cases hr : prodToIdxAux p rest (base + 1) with
    | some j' =>
      rw [hr] at h
      obtain ⟨h1, h2, h3⟩ := ih (base + 1) j' hr
      have hjj : j' = j := by injection h
      rw [← hjj]
      refine ⟨by omega, ?_, ?_⟩
      · simp only [List.length_cons]
        omega
      · have hj2 : j' - base = (j' - (base + 1)) + 1 := by omega
        rw [hj2, List.get?_cons_succ]
        exact h3
    | none =>
      rw [hr] at h
      by_cases hq : q == p
      · rw [if_pos hq] at h
        obtain rfl : base = j := by injection h
        refine ⟨le_refl _, by simp, ?_⟩
        simp [eq_of_beq hq]
      · rw [if_neg hq] at h
        exact absurd h (by simp)

theorem prodToIdxAux_mem (p : String) (ids : List String) (base j : Nat)
    (h : prodToIdxAux p ids base = some j) : p ∈ ids := by
  obtain ⟨_, _, h3⟩ := prodToIdxAux_some p ids base j h
  exact List.get?_mem h3

theorem prodToIdxAux_last :
    ∀ (ids : List String), ids.Nodup →
      ∀ (i : Nat) (hi : i < ids.length) (base : Nat),
        prodToIdxAux (ids.get ⟨i, hi⟩) ids base = some (base + i) := by
  intro ids
  induction ids with
  | nil => intro _ i hi; exact absurd hi (by simp)
  | cons q rest ih =>
    intro hnd i hi base
    obtain ⟨hq, hrest⟩ := List.nodup_cons.mp hnd
    cases i with
    | zero =>
      show prodToIdxAux q (q :: rest) base = some base
      unfold prodToIdxAux
      cases hr : prodToIdxAux q rest (base + 1) with
      | some j' => exact absurd (prodToIdxAux_mem q rest (base + 1) j' hr) hq
      | none => simp
    | succ i' =>
      have hi' : i' < rest.length := by simpa using hi
      show prodToIdxAux (rest.get ⟨i', hi'⟩) (q :: rest) base = some (base + (i' + 1))
      unfold prodToIdxAux
      rw [ih hrest i' hi' (base + 1)]
      exact congrArg some (by omega)

theorem prodToIdx_get (ids : List String) (hnd : ids.Nodup)
    (i : Fin ids.length) : prodToIdx ids (ids.get i) = some i.val := by
  have := prodToIdxAux_last ids hnd i.val i.isLt 0
  simpa [prodToIdx] using this

theorem prodToIdx_some (ids : List String) (p : String) (j : Nat)
    (h : prodToIdx ids p = some j) : j < ids.length ∧ ids.get? j = some p := by
  obtain ⟨_, h2, h3⟩ := prodToIdxAux_some p ids 0 j h
  constructor
  · simpa using h2
  · simpa using h3

theorem prodToIdx_not_mem (ids : List String) (p : String) (h : p ∉ ids) :
    prodToIdx ids p = none := by
  cases hj : prodToIdx ids p with
  | none => rfl
  | some j => exact absurd (prodToIdxAux_mem p ids 0 j hj) h

theorem mapOrdinals_ok (ids : List String) (pid : String) :
    ∀ (nbrs : List Nat), (∀ i ∈ nbrs, i < ids.length) →
      mapOrdinals ids pid nbrs =
        .ok ((nbrs.filterMap (fun i => ids.get? i)).filter
              (fun n => n != pid)) := by
  intro nbrs
  induction nbrs with
  | nil => intro _; rfl
  | cons i rest ih =>
    intro h
    have hi : i < ids.length := h i (List.mem_cons_self i rest)
    have hname : ids.get? i = some (ids.get ⟨i, hi⟩) := List.get?_eq_get hi
    have hrest := ih (fun j hj => h j (List.mem_cons_of_mem i hj))
    unfold mapOrdinals
    rw [hname, hrest, List.filterMap_cons, hname]
    cases hb : ids.get ⟨i, hi⟩ == pid with
    | true => simp [List.filter_cons, hb]
    | false => simp [List.filter_cons, hb]

theorem parsePattern_lits (l : List Char)
    (h : ∀ c ∈ l, isRegexMeta c = false) :
    parsePattern l = some (l.map RAtom.lit) := by
  induction l with
  | nil => rfl
  | cons c cs ih =>
    have hc : isRegexMeta c = false := h c (List.mem_cons_self c cs)
    have hdot : ¬ (c = '.') := by
      intro e
      rw [e] at hc
      simp [isRegexMeta] at hc
    rw [List.map_cons]
    unfold parsePattern
    rw [if_neg hdot, hc]
    simp [ih (fun d hd => h d (List.mem_cons_of_mem c hd))]

theorem matchHere_lits (n : List Char) :
    ∀ (h : List Char),
      matchHere (n.map RAtom.lit) h = (lowerL n).isPrefixOf (lowerL h) := by
  induction n with
  | nil => intro h; cases h <;> rfl
  | cons c cs ih =>
    intro h
    cases h with
    | nil => rfl
    | cons d ds =>
      show (atomMatchCI (RAtom.lit c) d && matchHere (cs.map RAtom.lit) ds) = _
      rw [ih ds]
      rfl

theorem reSearch_lits (n : List Char) :
    ∀ (h : List Char),
      reSearch (n.map RAtom.lit) h = containsSub (lowerL n) (lowerL h) := by
  intro h
  induction h with
  | nil =>
    show matchHere (n.map RAtom.lit) [] = containsSub (lowerL n) []
    rw [matchHere_lits]
    cases n <;> rfl
  | cons d ds ih =>
    show (matchHere (n.map RAtom.lit) (d :: ds) || reSearch (n.map RAtom.lit) ds) = _
    rw [matchHere_lits, ih]
    rfl

/-!
## Claims
-/

/-- C1 counterexample: the claim says `get_similar` falls back to the ANN
path when the similarity map exists but lacks the id.  In `ctxC1` the map
exists and lacks the id B, and the ANN path would answer A, C — yet
`get_similar` returns the empty list: `similar_by_map` yields
`similarity_map.get(pid, [])` which is `[]`, not `None`, so no fallback
happens. -/
theorem c1_counterexample :
    getSimilar ctxC1 "B" 2 = .ok [] ∧
    similarByAnnoy ctxC1 "B" 2 = .ok (some ["A", "C"]) := by
  constructor <;> rfl

/-- C1 amended: when a similarity map exists and contains the id,
`get_similar` returns the first `min(k, length)` stored entries unmodified;
when the map exists but lacks the id, it returns the empty list (no ANN
fallback); only when no similarity map was loaded at all does it delegate to
the ANN path (whose falsy answers are coerced to the empty list). -/
theorem c1_amended (ctx : Ctx) (pid : String) (k : Int) :
    (∀ m l, ctx.similarityMap = some m → List.lookup pid m = some l →
      0 ≤ k → getSimilar ctx pid k = .ok (l.take k.toNat)) ∧
    (∀ m, ctx.similarityMap = some m → List.lookup pid m = none →
      getSimilar ctx pid k = .ok []) ∧
    (ctx.similarityMap = none →
      getSimilar ctx pid k =
        (similarByAnnoy ctx pid k).map (fun o => o.getD [])) := by
  refine ⟨?_, ?_, ?_⟩
  · intro m l hm hl hk
    simp [getSimilar, similarByMap, hm, hl, pyTake_nonneg k hk]
  · intro m hm hl
    simp [getSimilar, similarByMap, hm, hl, pyTake]
  · intro hm
    simp only [getSimilar, similarByMap, hm]
    cases similarByAnnoy ctx pid k <;> rfl

/-- C1 witness: in `ctxC1` the map holds A with stored neighbours C, B, and
`get_similar` at `k = 2` returns them unchanged. -/
theorem c1_amended_witness : getSimilar ctxC1 "A" 2 = .ok ["C", "B"] :=
  (c1_amended ctxC1 "A" 2).1 [("A", ["C", "B"])] ["C", "B"] rfl rfl
    (by decide)

/-- C2 counterexample: the claim says a parse failure of any optional
artifact leaves the load as a whole successful.  In `storeC2` only the
similarity map is corrupt, yet `load_artifacts` raises: its load is
`joblib.load(sm_path) if sm_path.exists() else None`, with no try block. -/
theorem c2_counterexample :
    storeC2.sm = Art.corrupt ∧
    loadArtifacts id storeC2 = .error "joblib.load raised" := by
  constructor <;> rfl

/-- C2 amended: failure isolation holds for the catalog table, the
dimension-hint model and the ANN decompression — each parse failure is
recorded as absent and the rest still load — but a CORRUPT similarity map or
TF-IDF vectorizer raises out of `load_artifacts` (only their absence is
tolerated); a missing catalog is recorded as `None` by the load and
escalated to a hard failure afterwards by the app guard. -/
theorem c2_amended (gz : List Nat → List Nat) (s : Store)
    (hsm : s.sm ≠ Art.corrupt) (htf : s.tfidf ≠ Art.corrupt) :
    ∃ a fs1, loadArtifacts gz s = .ok (a, fs1) ∧
      (s.pmJob = Art.corrupt → a.productMeta = none) ∧
      (s.svd = SvdFile.corrupt → a.svdModel = none) ∧
      (∀ m, s.sm = Art.ok m → a.similarityMap = some m) ∧
      (s.sm = Art.absent → a.similarityMap = none) ∧
      (a.productMeta = none →
        catalogGuard a = .error "product_meta not found") ∧
      (∀ t, a.productMeta = some t → catalogGuard a = .ok ()) := by
  obtain ⟨pmJob, pmPkl, sm, tfidf, svd, fs⟩ := s
  cases sm with
  | corrupt => exact absurd rfl hsm
  | absent =>
    cases tfidf with
    | corrupt => exact absurd rfl htf
    | absent =>
      refine ⟨_, _, rfl, ?_, ?_, ?_, ?_, ?_, ?_⟩ <;>
        intro h <;> simp_all [loadSvdObj, catalogGuard]
    | ok v =>
      refine ⟨_, _, rfl, ?_, ?_, ?_, ?_, ?_, ?_⟩ <;>
        intro h <;> simp_all [loadSvdObj, catalogGuard]
  | ok m =>
    cases tfidf with
    | corrupt => exact absurd rfl htf
    | absent =>
      refine ⟨_, _, rfl, ?_, ?_, ?_, ?_, ?_, ?_⟩ <;>
        intro h <;> simp_all [loadSvdObj, catalogGuard]
    | ok v =>
      refine ⟨_, _, rfl, ?_, ?_, ?_, ?_, ?_, ?_⟩ <;>
        intro h <;> simp_all [loadSvdObj, catalogGuard]

/-- C2 witness: in `storeC2w` the catalog table and the dimension hint are
corrupt, yet the load succeeds, records both as absent, and still loads the
similarity map. -/
theorem c2_amended_witness :
    ∃ a fs1, loadArtifacts id storeC2w = .ok (a, fs1) ∧
      (storeC2w.pmJob = Art.corrupt → a.productMeta = none) ∧
      (storeC2w.svd = SvdFile.corrupt → a.svdModel = none) ∧
      (∀ m, storeC2w.sm = Art.ok m → a.similarityMap = some m) ∧
      (storeC2w.sm = Art.absent → a.similarityMap = none) ∧
      (a.productMeta = none →
        catalogGuard a = .error "product_meta not found") ∧
      (∀ t, a.productMeta = some t → catalogGuard a = .ok ()) :=
  c2_amended id storeC2w (by decide) (by decide)

/-- C3 counterexample: the claim says search is a PLAIN-substring match.
But `str.contains(query, case=False, na=False)` compiles the query as a
regular expression: the query matching dot-as-wildcard finds the record
titled Red Shoe, while a plain substring match finds nothing. -/
theorem c3_counterexample :
    searchUI "r.d" catC3 = some [⟨"A", some "Red Shoe"⟩] ∧
    searchSpec "r.d" 100 catC3 = [] := by
  constructor <;> rfl

/-- C3 amended: search matches the query as a case-insensitive REGULAR
EXPRESSION against the title (pandas `str.contains` default), with missing
titles never matching, catalog order preserved and the result truncated to
the first 100 rows; for queries free of regex metacharacters this coincides
with the spec's plain-substring search, and an empty (or all-whitespace)
query returns exactly the first 100 catalog records in load order. -/
theorem c3_amended :
    (∀ (q : String) (cat : List PRecord), pyStrip q ≠ [] →
      (∀ c ∈ q.data, isRegexMeta c = false) →
      searchUI q cat = some (searchSpec q 100 cat)) ∧
    (∀ (q : String) (cat : List PRecord), pyStrip q = [] →
      searchUI q cat = some (cat.take 100)) := by
  constructor
  · intro q cat hq hmeta
    have hne : ¬ (q = "") := by
      intro e
      rw [e] at hq
      exact hq rfl
    have hparse := parsePattern_lits q.data hmeta
    rw [searchUI, if_neg hq, searchCode, hparse]
    refine congrArg some ?_
    rw [searchSpec, if_neg hne]
    have hfun : (fun r : PRecord =>
        match r.title with
        | some t => reSearch (q.data.map RAtom.lit) t.data
        | none => false) = (fun r : PRecord =>
        match r.title with
        | some t => containsSub (lowerL q.data) (lowerL t.data)
        | none => false) := by
      funext r
      cases r.title with
      | none => rfl
      | some t => simp [reSearch_lits]
    exact congrArg (fun f => (cat.filter f).take 100) hfun
  · intro q cat hq
    rw [searchUI, if_pos hq]

/-- C3 witness: a metacharacter-free query agrees with the spec's
plain-substring search on the Red Shoe catalog. -/
theorem c3_amended_witness :
    searchUI "red" catC3 = some (searchSpec "red" 100 catC3) :=
  c3_amended.1 "red" catC3 (by decide) (by decide)

/-- C4: on the ANN fallback path, for any id with an ordinal and any
`k ≥ 0` whose `k+1`-neighbour query answers only in-range ordinals,
`similar_by_annoy` maps the returned ordinals to ids in order, removes the
query id, and only then truncates to `k`; the result never contains the id,
has at most `k` entries, and when fewer than `k` survive self-exclusion the
whole shorter list is returned unpadded.  Concretely, on catalog A, B, C
with the index answering ordinals 1, 0, 2, `get_similar` for B at `k = 5`
returns A, C. -/
theorem c4_ann_fallback :
    (∀ (ids : List String) (sm : Option (List (String × List String)))
       (ai : Nat → Int → List Nat) (pid : String) (k : Int) (idx : Nat),
      prodToIdx ids pid = some idx → 0 ≤ k →
      (∀ i ∈ ai idx (k + 1), i < ids.length) →
      (((Ctx.mk ids sm (some ai)).ann = some ai) ∧
       let kept := ((ai idx (k + 1)).filterMap
           (fun i => ids.get? i)).filter (fun n => n != pid)
       similarByAnnoy ⟨ids, sm, some ai⟩ pid k =
         .ok (some (kept.take k.toNat)) ∧
       pid ∉ kept.take k.toNat ∧
       (kept.take k.toNat).length ≤ k.toNat ∧
       (kept.length ≤ k.toNat → kept.take k.toNat = kept))) ∧
    getSimilar ctxC4 "B" 5 = .ok ["A", "C"] := by
  constructor
  · intro ids sm ai pid k idx hidx hk hin
    refine ⟨rfl, ?_, ?_, ?_, ?_⟩
    · show similarByAnnoy ⟨ids, sm, some ai⟩ pid k = _
      rw [similarByAnnoy]
      simp only [hidx, mapOrdinals_ok ids pid (ai idx (k + 1)) hin]
      rw [pyTake_nonneg k hk]
    · intro hmem
      have hkept := List.take_subset k.toNat _ hmem
      have := (List.mem_filter.mp hkept).2
      simp at this
    · exact List.length_take_le _ _
    · exact fun hle => List.take_of_length_le hle
  · rfl

/-- C4 witness: the universal part instantiated on catalog A, B, C with the
index answering ordinals 1, 0, 2 for the query B at `k = 5`. -/
theorem c4_ann_fallback_witness :
    similarByAnnoy ⟨["A", "B", "C"], none, some (fun _ _ => [1, 0, 2])⟩
      "B" 5 = .ok (some ["A", "C"]) :=
  ((c4_ann_fallback.1 ["A", "B", "C"] none (fun _ _ => [1, 0, 2]) "B" 5 1
      rfl (by decide) (by decide)).2).1

/-- C5 counterexample: the claim says a negative `k` fails fast with an
invalid-argument signal.  The code instead applies Python slice semantics:
on the map path with stored neighbours C, B, the call with `k = -1` silently
returns C (all but the last stored entry) and raises nothing. -/
theorem c5_counterexample : getSimilar ctxC5 "A" (-1) = .ok ["C"] := rfl

/-- C5 amended: the Resolver and Catalog never raise for missing-data
conditions — with no ANN index `get_similar` always answers, a loaded map
always answers for any id and any `k`, an id absent from the catalog gets
its own id echoed by `get_title` and `None` from the ordinal map — but a
negative `k` is NOT rejected: it is silently interpreted by Python slice
semantics, `k = -1` returning the stored list minus its last entry. -/
theorem c5_amended :
    (∀ (ids : List String) (sm : Option (List (String × List String)))
       (pid : String) (k : Int),
      ∃ l, getSimilar ⟨ids, sm, none⟩ pid k = .ok l) ∧
    (∀ (ctx : Ctx) (pid : String) (k : Int)
       (m : List (String × List String)), ctx.similarityMap = some m →
      getSimilar ctx pid k = .ok (pyTake k ((List.lookup pid m).getD []))) ∧
    (∀ (cat : List PRecord) (pid : String), (∀ r ∈ cat, r.pid ≠ pid) →
      getTitle cat pid = some pid) ∧
    (∀ (ids : List String) (p : String), p ∉ ids →
      prodToIdx ids p = none) ∧
    (∀ (m : List (String × List String)) (l : List String) (pid : String),
      List.lookup pid m = some l →
      getSimilar ⟨[], some m, none⟩ pid (-1) =
        .ok (l.take (l.length - 1))) := by
  refine ⟨?_, ?_, ?_, ?_, ?_⟩
  · intro ids sm pid k
    cases sm with
    | none => exact ⟨[], rfl⟩
    | some m =>
      exact ⟨pyTake k ((List.lookup pid m).getD []), rfl⟩
  · intro ctx pid k m hm
    simp [getSimilar, similarByMap, hm]
  · intro cat pid hne
    rw [getTitle, List.find?_eq_none.mpr]
    intro r hr
    simpa using hne r hr
  · exact prodToIdx_not_mem
  · intro m l pid hl
    simp [getSimilar, similarByMap, hl, pyTake_neg_one]

/-- C5 witness: with the map of `ctxC5` loaded, `get_similar` for A at
`k = 3` answers the stored list without raising. -/
theorem c5_amended_witness : getSimilar ctxC5 "A" 3 = .ok ["C", "B"] :=
  c5_amended.2.1 ctxC5 "A" 3 [("A", ["C", "B"])] rfl

/-- C6 counterexample: the claim says `get_title` always returns a
NON-EMPTY string.  For a catalog whose stored title is the empty string it
returns that empty string. -/
theorem c6_counterexample : getTitle catC6 "A" = some "" := rfl

/-- C6 amended: `get_title` is total and never throws — it returns the
stored title cell of the FIRST record matching the id when one exists and
the id itself otherwise — but non-emptiness is only guaranteed when every
stored title is a present non-empty string and the id is non-empty; an
empty stored title is echoed back empty. -/
theorem c6_amended (cat : List PRecord) (pid : String) :
    (∀ r, cat.find? (fun r => r.pid == pid) = some r →
      getTitle cat pid = r.title) ∧
    ((∀ r ∈ cat, r.pid ≠ pid) → getTitle cat pid = some pid) ∧
    ((∀ r ∈ cat, ∃ t, r.title = some t ∧ t ≠ "") → pid ≠ "" →
      ∃ s, getTitle cat pid = some s ∧ s ≠ "") := by
  refine ⟨?_, ?_, ?_⟩
  · intro r hr
    rw [getTitle, hr]
  · intro hne
    rw [getTitle, List.find?_eq_none.mpr]
    intro r hr
    simpa using hne r hr
  · intro htitles hpid
    cases hf : cat.find? (fun r => r.pid == pid) with
    | none => exact ⟨pid, by rw [getTitle, hf], hpid⟩
    | some r =>
      obtain ⟨t, ht, hte⟩ := htitles r (List.mem_of_find?_eq_some hf)
      refine ⟨t, ?_, hte⟩
      rw [getTitle, hf]
      exact ht

/-- C6 witness: on a catalog with one properly titled record, a lookup of an
absent non-empty id yields a non-empty label. -/
theorem c6_amended_witness :
    ∃ s, getTitle [⟨"A", some "Red"⟩] "B" = some s ∧ s ≠ "" :=
  (c6_amended [⟨"A", some "Red"⟩] "B").2.2
    (fun r hr => by
      rw [List.mem_singleton] at hr
      rw [hr]
      exact ⟨"Red", rfl, by decide⟩)
    (by decide)

/-- C7: the decompression step writes the canonical file exactly when the
compressed file exists and the canonical one does not; an existing canonical
file is never overwritten (stays byte-identical), running the step a second
time changes nothing and takes the skip branch, and when decompression does
run the canonical file receives the decompressed bytes. -/
theorem c7_decompress_idempotent (gz : List Nat → List Nat) (fs : AnnFS) :
    ((annoyStep gz fs).2.isSome ↔ fs.gz.isSome ∧ fs.ann = none) ∧
    (annoyStep gz (annoyStep gz fs).1).1 = (annoyStep gz fs).1 ∧
    (annoyStep gz (annoyStep gz fs).1).2 = none ∧
    (∀ b, fs.ann = some b → (annoyStep gz fs).1.ann = some b) ∧
    (∀ g, fs.gz = some g → fs.ann = none →
      (annoyStep gz fs).1 = ⟨some g, some (gz g)⟩) := by
  obtain ⟨g, a⟩ := fs
  cases g <;> cases a <;> simp [annoyStep]

/-- C7 witness: a filesystem already holding a canonical file keeps its
bytes through the load path. -/
theorem c7_decompress_idempotent_witness :
    (annoyStep id ⟨none, some [7]⟩).1.ann = some [7] :=
  (c7_decompress_idempotent id ⟨none, some [7]⟩).2.2.2.1 [7] rfl

/-- C8: resolving the embedding dimension handles a bare model object with
an integer component count and a dict wrapping one under the known `svd`
key, and in every other shape (file missing, unreadable, a dict without the
key, or an object without the attribute) falls back to the default 32. -/
theorem c8_dim_resolution (f : SvdFile) :
    inferDim (loadSvdObj f) =
      match f with
      | .bare ⟨some n⟩ => n
      | .dictWithKey ⟨some n⟩ => n
      | _ => 32 := by
  cases f with
  | absent => rfl
  | corrupt => rfl
  | dictWithoutKey => rfl
  | dictWithKey o => obtain ⟨nc⟩ := o; cases nc <;> rfl
  | bare o => obtain ⟨nc⟩ := o; cases nc <;> rfl

/-- C9: for a catalog with pairwise-distinct ids, `prod_to_idx` maps the id
in row `i` to exactly `i`, every value it takes is a position below the
catalog size holding that id, ids absent from the catalog get nothing, and
no two ids share an ordinal — together a bijection between the catalog ids
and the interval from 0 to the catalog size. -/
theorem c9_ordinal_bijection (ids : List String) (hnd : ids.Nodup) :
    (∀ i : Fin ids.length, prodToIdx ids (ids.get i) = some i.val) ∧
    (∀ p j, prodToIdx ids p = some j →
      j < ids.length ∧ ids.get? j = some p) ∧
    (∀ p, p ∉ ids → prodToIdx ids p = none) ∧
    (∀ p q j, prodToIdx ids p = some j → prodToIdx ids q = some j →
      p = q) := by
  refine ⟨?_, ?_, ?_, ?_⟩
  · exact fun i => prodToIdx_get ids hnd i
  · exact fun p j h => prodToIdx_some ids p j h
  · exact fun p h => prodToIdx_not_mem ids p h
  · intro p q j hp hq
    obtain ⟨_, hgp⟩ := prodToIdx_some ids p j hp
    obtain ⟨_, hgq⟩ := prodToIdx_some ids q j hq
    rw [hgp] at hgq
    exact Option.some_injective _ hgq

/-- C9 witness: on the three-id catalog A, B, C the second row's id maps to
ordinal 1. -/
theorem c9_ordinal_bijection_witness :
    prodToIdx ["A", "B", "C"]
      (["A", "B", "C"].get ⟨1, by decide⟩) = some 1 :=
  (c9_ordinal_bijection ["A", "B", "C"] (by decide)).1 ⟨1, by decide⟩

/-- C10: `similar_by_annoy` indexes `product_ids` with every ordinal the
ANN query returns, unguarded — it answers without raising whenever every
returned ordinal is below the catalog size (and an id with no ordinal short
circuits to an empty answer), but an index answering an out-of-range
ordinal, as one built over more items than the catalog can, makes it raise
`IndexError`: concretely so on the two-id catalog whose index answers
ordinal 5. -/
theorem c10_unguarded_indexing :
    (∀ (ids : List String) (sm : Option (List (String × List String)))
       (ai : Nat → Int → List Nat) (pid : String) (k : Int) (idx : Nat),
      prodToIdx ids pid = some idx →
      (∀ i ∈ ai idx (k + 1), i < ids.length) →
      ∃ l, similarByAnnoy ⟨ids, sm, some ai⟩ pid k = .ok (some l)) ∧
    (∀ (ids : List String) (sm : Option (List (String × List String)))
       (ai : Nat → Int → List Nat) (pid : String) (k : Int),
      prodToIdx ids pid = none →
      similarByAnnoy ⟨ids, sm, some ai⟩ pid k = .ok (some [])) ∧
    similarByAnnoy ctxC10 "A" 1 = .error "IndexError" := by
  refine ⟨?_, ?_, rfl⟩
  · intro ids sm ai pid k idx hidx hin
    refine ⟨pyTake k (((ai idx (k + 1)).filterMap
        (fun i => ids.get? i)).filter (fun n => n != pid)), ?_⟩
    show similarByAnnoy ⟨ids, sm, some ai⟩ pid k = _
    rw [similarByAnnoy]
    simp only [hidx, mapOrdinals_ok ids pid (ai idx (k + 1)) hin]
  · intro ids sm ai pid k hidx
    rw [similarByAnnoy]
    simp only [hidx]

/-- C10 witness: on a two-id catalog whose index answers only in-range
ordinals, `similar_by_annoy` answers without raising. -/
theorem c10_unguarded_indexing_witness :
    ∃ l, similarByAnnoy ⟨["X", "Y"], none, some (fun _ _ => [0, 1])⟩
      "X" 1 = .ok (some l) :=
  c10_unguarded_indexing.1 ["X", "Y"] none (fun _ _ => [0, 1]) "X" 1 0
    rfl (by decide)

end RecSys
